import Mathlib

/-!
Verification of `apply_loudest_track_gain.py`: a tool that, per album
directory, reads a tab-delimited loudness report, selects the gain to
write (the minimum of the loudest track's gain and the album ceiling
gain), and writes it into the tags of the `.mp3` / `.m4a` files of the
directory.

The embedding models the parsed report rows directly: a CSV cell that the
header does not provide is `none` (a `KeyError` in the source), a cell
that is present but does not parse as a float is `some none` (a
`ValueError`), and a parsed value is `some (some q)` with `q : ℚ`
standing for the numeric value.  Each reader returns its result together
with a flag telling whether it logged an error (the source's outer
`except Exception` handler).
-/

unseal Rat.add Rat.sub Rat.mul Rat.inv

namespace ReplayGain

/-- Source constant `DEFAULT_CSV`. -/
def DEFAULT_CSV : String := "replaygain.csv"

/-- Source constant `M4A_TAG_KEY`. -/
def M4A_TAG_KEY : String := "----:com.apple.iTunes:REPLAYGAIN_ALBUM_GAIN"

/-- Source constant `MP3_TAG_KEY`. -/
def MP3_TAG_KEY : String := "REPLAYGAIN_ALBUM_GAIN"

/-- Source constant `VALID_EXTENSIONS`. -/
def VALID_EXTENSIONS : List String := [".mp3", ".m4a"]

/-- Python `str.lower` on one character, for the ASCII range the tool
compares against ("album", ".mp3", ".m4a"). -/
def pyLowerChar (c : Char) : Char :=
  if 'A' ≤ c ∧ c ≤ 'Z' then Char.ofNat (c.toNat + 32) else c

/-- Python `str.lower` (ASCII range). -/
def pyLower (s : String) : String := String.mk (s.data.map pyLowerChar)

/-- A parsed report row.  `filename` is `none` when the "Filename" column
is missing from the header (`row["Filename"]` raises `KeyError`).  For
the numeric columns, `none` means the column is missing (`KeyError`),
`some none` means the cell is present but not numeric (`float` raises
`ValueError`), and `some (some q)` means the cell parses to `q`. -/
structure Row where
  filename : Option String
  loudness : Option (Option ℚ)
  gain : Option (Option ℚ)
deriving DecidableEq, Repr

/-- The loop body of `get_loudest_track_gain`: walk the rows carrying
`max_loudness` and `target_gain`; `Except.error ()` models an exception
escaping to the outer handler (a `KeyError` from a missing column), while
a `ValueError` from a malformed numeric cell is caught inside the loop
and skips the row. -/
def loudestAux : List Row → ℚ → Option ℚ → Except Unit (Option ℚ)
  | [], _, target_gain => Except.ok target_gain
  | row :: rest, max_loudness, target_gain =>
    match row.filename with
    | none => Except.error ()
    | some fn =>
      if pyLower fn = "album" then
        loudestAux rest max_loudness target_gain
      else
        match row.loudness with
        | none => Except.error ()
        | some none => loudestAux rest max_loudness target_gain
        | some (some loudness) =>
          match row.gain with
          | none => Except.error ()
          | some none => loudestAux rest max_loudness target_gain
          | some (some gain) =>
            if loudness > max_loudness then
              loudestAux rest loudness (some gain)
            else
              loudestAux rest max_loudness target_gain

/-- `get_loudest_track_gain`: the gain of the loudest track, starting
from the sentinel `max_loudness = -999`.  The second component records
whether the outer exception handler logged an error; in both the error
case and the no-valid-track case the Python function returns `None`. -/
def get_loudest_track_gain (rows : List Row) : Option ℚ × Bool :=
  match loudestAux rows (-999) none with
  | Except.ok target_gain => (target_gain, false)
  | Except.error _ => (none, true)

/-- The loop of `get_album_max_gain`: return at the first row whose
filename lowercases to "album"; a `ValueError` on its gain cell returns
`None` (without an error log), a `KeyError` escapes to the outer handler. -/
def albumAux : List Row → Except Unit (Option ℚ)
  | [] => Except.ok none
  | row :: rest =>
    match row.filename with
    | none => Except.error ()
    | some fn =>
      if pyLower fn = "album" then
        match row.gain with
        | none => Except.error ()
        | some none => Except.ok none
        | some (some g) => Except.ok (some g)
      else albumAux rest

/-- `get_album_max_gain`: the album ceiling gain from the first summary
row, paired with whether an error was logged. -/
def get_album_max_gain (rows : List Row) : Option ℚ × Bool :=
  match albumAux rows with
  | Except.ok r => (r, false)
  | Except.error _ => (none, true)

/-- Index of the last '.' in a character list, as Python `str.rfind`. -/
def rfindDot (cs : List Char) : Option Nat :=
  (List.range cs.length).reverse.find? (fun i => cs.getD i ' ' == '.')

/-- `pathlib.PurePath.suffix` on a file name: the substring from the last
dot on, provided that dot is neither the first nor the last character;
otherwise the empty string. -/
def pySuffix (name : String) : String :=
  let cs := name.data
  match rfindDot cs with
  | none => ""
  | some i => if 0 < i ∧ i + 1 < cs.length then String.mk (cs.drop i) else ""

/-- Round a rational to an integer, ties to even, as Python float
formatting does. -/
def roundHalfEven (q : ℚ) : ℤ :=
  if q - ⌊q⌋ < 1 / 2 then ⌊q⌋
  else if q - ⌊q⌋ > 1 / 2 then ⌊q⌋ + 1
  else if ⌊q⌋ % 2 = 0 then ⌊q⌋ else ⌊q⌋ + 1

/-- Two-digit zero-padded rendering of a fractional part below 100. -/
def twoDigits (n : Nat) : String :=
  if n < 10 then "0" ++ toString n else toString n

/-- The source's `f"{gain_db:.2f} dB"`: fixed two-decimal rendering with
a " dB" suffix (at rational rather than binary-float precision). -/
def formatGain (q : ℚ) : String :=
  let c := roundHalfEven (q * 100)
  let sign := if c < 0 ∨ (c = 0 ∧ q < 0) then "-" else ""
  let a := c.natAbs
  sign ++ toString (a / 100) ++ "." ++ twoDigits (a % 100) ++ " dB"

/-- The tag mutation `write_gain` performs on the on-disk file: a
freeform iTunes atom for `.m4a`, a TXXX frame for `.mp3`. -/
inductive TagWrite where
  | m4aFreeForm (key : String) (value : String)
  | mp3TXXX (key : String) (value : String)
deriving DecidableEq, Repr

/-- `write_gain`: `none` when no mutation is performed (dry run, or an
unrecognized extension falling through both branches); `some w` is the
tag mutation persisted to the file. -/
def write_gain (file_path : String) (gain_db : ℚ) (dry_run : Bool) : Option TagWrite :=
  let ext := pyLower (pySuffix file_path)
  let gain_str := formatGain gain_db
  if dry_run then none
  else if ext = ".m4a" then some (TagWrite.m4aFreeForm M4A_TAG_KEY gain_str)
  else if ext = ".mp3" then some (TagWrite.mp3TXXX MP3_TAG_KEY gain_str)
  else none

/-- Observable outcome of `process_album` on one album directory:
which log lines were emitted, the computed `gain_to_write` (when line
107 is reached), the files on which `write_gain` was invoked, and the
tag mutations actually performed. -/
structure ProcResult where
  missingCsvWarn : Bool
  noDataWarn : Bool
  errorLogged : Bool
  noWriteInfo : Bool
  writeLogged : Bool
  gainToWrite : Option ℚ
  invoked : List String
  mutations : List (String × TagWrite)
deriving DecidableEq, Repr

/-- `process_album`: `csv_present` models `os.path.isfile(csv_path)`,
`rows` the parsed report, `files` the names `os.listdir` yields. -/
def process_album (csv_present : Bool) (rows : List Row) (files : List String)
    (dry_run : Bool) : ProcResult :=
  if csv_present = false then
    { missingCsvWarn := true, noDataWarn := false, errorLogged := false,
      noWriteInfo := false, writeLogged := false, gainToWrite := none,
      invoked := [], mutations := [] }
  else
    let lr := get_loudest_track_gain rows
    let ar := get_album_max_gain rows
    let err := lr.2 || ar.2
    match lr.1, ar.1 with
    | some loudest_gain, some album_max_gain =>
      let gain_to_write := min loudest_gain album_max_gain
      if |gain_to_write - album_max_gain| < 1 / 100 then
        { missingCsvWarn := false, noDataWarn := false, errorLogged := err,
          noWriteInfo := true, writeLogged := false,
          gainToWrite := some gain_to_write, invoked := [], mutations := [] }
      else
        let targets := files.filter (fun f => decide (pyLower (pySuffix f) ∈ VALID_EXTENSIONS))
        { missingCsvWarn := false, noDataWarn := false, errorLogged := err,
          noWriteInfo := false, writeLogged := true,
          gainToWrite := some gain_to_write, invoked := targets,
          mutations := targets.filterMap
            (fun f => (write_gain f gain_to_write dry_run).map (fun w => (f, w))) }
    | _, _ =>
      { missingCsvWarn := false, noDataWarn := true, errorLogged := err,
        noWriteInfo := false, writeLogged := false, gainToWrite := none,
        invoked := [], mutations := [] }

/-- `main`'s worker count, `os.cpu_count() or 2`: Python `or` replaces a
falsy value (`None`, and the impossible `0`) by 2 and keeps any other
count unchanged. -/
def num_threads (cpu_count : Option Nat) : Nat :=
  match cpu_count with
  | none => 2
  | some n => if n = 0 then 2 else n

/-- The (loudness, gain) pairs of the track rows that survive
gain-selection filtering: filename present and not "album"
(case-insensitively), loudness and gain cells present and numeric.
Used to state what gain-selection scans. -/
def validTracks : List Row → List (ℚ × ℚ)
  | [] => []
  | row :: rest =>
    match row.filename with
    | none => validTracks rest
    | some fn =>
      if pyLower fn = "album" then validTracks rest
      else
        match row.loudness with
        | none => validTracks rest
        | some none => validTracks rest
        | some (some l) =>
          match row.gain with
          | none => validTracks rest
          | some none => validTracks rest
          | some (some g) => (l, g) :: validTracks rest

/-- A row on which the track-scanning loop raises `KeyError` (a column
required for this row is absent from the header): the "Filename" cell is
missing, or the row is a track row and its "Loudness (LUFS)" cell is
missing, or its loudness parses and the "Gain (dB)" cell is missing. -/
def missingColumnB (row : Row) : Bool :=
  match row.filename with
  | none => true
  | some fn =>
    if pyLower fn = "album" then false
    else
      match row.loudness with
      | none => true
      | some none => false
      | some (some _) =>
        match row.gain with
        | none => true
        | some _ => false

/-- Modelled from the spec's wording of the tie-break: the gain of the
first-encountered track attaining the maximum loudness, i.e. the first
element whose loudness is at least every later element's. -/
def firstMaxGain : List (ℚ × ℚ) → Option ℚ
  | [] => none
  | (l, g) :: ts =>
    if ts.all (fun u => decide (u.1 ≤ l)) then some g else firstMaxGain ts

/-- The pure fold `loudestAux` computes on the surviving track rows. -/
def trackFold : List (ℚ × ℚ) → ℚ → Option ℚ → Option ℚ
  | [], _, target_gain => target_gain
  | (l, g) :: ts, max_loudness, target_gain =>
    if l > max_loudness then trackFold ts l (some g)
    else trackFold ts max_loudness target_gain

/-- Track row of the spec's worked scenario: `TrackA, -10.0 LUFS, -2.0 dB`. -/
def trackRowA : Row := ⟨some "TrackA", some (some (-10)), some (some (-2))⟩

/-- Track row of the spec's worked scenario: `TrackB, -8.0 LUFS, -3.0 dB`. -/
def trackRowB : Row := ⟨some "TrackB", some (some (-8)), some (some (-3))⟩

/-- Summary row of the spec's worked scenario: `album, -, -2.5 dB`
(the loudness cell "-" does not parse). -/
def albumRow : Row := ⟨some "album", some none, some (some (-5 / 2))⟩

/-- The report of the spec's worked scenario. -/
def scenarioRows : List Row := [trackRowA, trackRowB, albumRow]


/-- C4: With the dry-run flag set, `write_gain` performs no mutation for
any file and any gain value. -/
theorem C4_dry_run_writes_nothing (file_path : String) (gain_db : ℚ) :
    write_gain file_path gain_db true = none := rfl

/-- C7 counterexample: with an available parallelism of 1, the worker
count `os.cpu_count() or 2` is 1, not at least 2. -/
theorem C7_counterexample : num_threads (some 1) = 1 ∧ ¬ 2 ≤ num_threads (some 1) := by
  decide

/-- C7 amended: the worker count equals the reported parallelism whenever
it is nonzero, and falls back to 2 only when the parallelism is
unreported (or reported as zero); it is not clamped to a minimum of 2. -/
theorem C7_amended_fallback (n : Nat) (h : n ≠ 0) :
    num_threads (some n) = n ∧ num_threads none = 2 ∧ num_threads (some 0) = 2 := by
  refine ⟨?_, rfl, rfl⟩
  simp [num_threads, h]

theorem C7_amended_witness :
    num_threads (some 1) = 1 ∧ num_threads none = 2 ∧ num_threads (some 0) = 2 :=
  C7_amended_fallback 1 (by decide)

/-- C6: when either reader yields no gain, the album processor warns,
writes nothing and computes no gain. -/
theorem C6_insufficient_data_no_write (rows : List Row) (files : List String) (dry_run : Bool)
    (h : (get_loudest_track_gain rows).1 = none ∨ (get_album_max_gain rows).1 = none) :
    (process_album true rows files dry_run).noDataWarn = true ∧
    (process_album true rows files dry_run).invoked = [] ∧
    (process_album true rows files dry_run).mutations = [] ∧
    (process_album true rows files dry_run).gainToWrite = none := by
  cases hl : (get_loudest_track_gain rows).1 with
  | none => simp [process_album, hl]
  | some l =>
    cases ha : (get_album_max_gain rows).1 with
    | none => simp [process_album, hl, ha]
    | some a =>
      rw [hl, ha] at h
      rcases h with h | h <;> exact absurd h (by simp)

theorem C6_witness :
    (process_album true [] [] false).noDataWarn = true ∧
    (process_album true [] [] false).invoked = [] ∧
    (process_album true [] [] false).mutations = [] ∧
    (process_album true [] [] false).gainToWrite = none :=
  C6_insufficient_data_no_write [] [] false (Or.inl (by decide))


/-- Unfolding equation for one step of the track scan. -/
theorem loudestAux_cons (row : Row) (rest : List Row) (ml : ℚ) (tg : Option ℚ) :
    loudestAux (row :: rest) ml tg =
      (match row.filename with
      | none => Except.error ()
      | some fn =>
        if pyLower fn = "album" then loudestAux rest ml tg
        else
          match row.loudness with
          | none => Except.error ()
          | some none => loudestAux rest ml tg
          | some (some loudness) =>
            match row.gain with
            | none => Except.error ()
            | some none => loudestAux rest ml tg
            | some (some gain) =>
              if loudness > ml then loudestAux rest loudness (some gain)
              else loudestAux rest ml tg) := rfl

/-- Unfolding equation for one step of the summary scan. -/
theorem albumAux_cons (row : Row) (rest : List Row) :
    albumAux (row :: rest) =
      (match row.filename with
      | none => Except.error ()
      | some fn =>
        if pyLower fn = "album" then
          match row.gain with
          | none => Except.error ()
          | some none => Except.ok none
          | some (some g) => Except.ok (some g)
        else albumAux rest) := rfl

/-- Replacing the tail of the scanned row list by one on which
`loudestAux` agrees (at every accumulator) preserves the scan. -/
theorem loudestAux_congr_tail (pre xs ys : List Row)
    (h : ∀ ml tg, loudestAux xs ml tg = loudestAux ys ml tg) :
    ∀ ml tg, loudestAux (pre ++ xs) ml tg = loudestAux (pre ++ ys) ml tg := by
  induction pre with
  | nil => exact h
  | cons p pre ih =>
    intro ml tg
    rw [List.cons_append, List.cons_append, loudestAux_cons, loudestAux_cons]
    cases hfn : p.filename with
    | none => rfl
    | some fn =>
      by_cases halb : pyLower fn = "album"
      · simp only [if_pos halb]
        exact ih ml tg
      · simp only [if_neg halb]
        cases p.loudness with
        | none => rfl
        | some lc =>
          cases lc with
          | none => exact ih ml tg
          | some l =>
            cases p.gain with
            | none => rfl
            | some gc =>
              cases gc with
              | none => exact ih ml tg
              | some g =>
                by_cases hl : l > ml
                · simp only [if_pos hl]
                  exact ih l (some g)
                · simp only [if_neg hl]
                  exact ih ml tg

/-- Same congruence for the summary-row scan. -/
theorem albumAux_congr_tail (pre xs ys : List Row)
    (h : albumAux xs = albumAux ys) :
    albumAux (pre ++ xs) = albumAux (pre ++ ys) := by
  induction pre with
  | nil => exact h
  | cons p pre ih =>
    rw [List.cons_append, List.cons_append, albumAux_cons, albumAux_cons]
    cases hfn : p.filename with
    | none => rfl
    | some fn =>
      by_cases halb : pyLower fn = "album"
      · simp only [if_pos halb]
      · simp only [if_neg halb]
        exact ih

/-- A track row whose loudness cell is malformed, or whose loudness
parses but whose gain cell is malformed, is skipped by `loudestAux`. -/
theorem loudestAux_skips_malformed (post : List Row) (row : Row) (fn : String)
    (hfn : row.filename = some fn) (htrack : pyLower fn ≠ "album")
    (hbad : row.loudness = some none ∨
      (∃ l, row.loudness = some (some l) ∧ row.gain = some none)) :
    ∀ ml tg, loudestAux (row :: post) ml tg = loudestAux post ml tg := by
  intro ml tg
  rw [loudestAux_cons]
  rcases hbad with hl | ⟨l, hl, hg⟩
  · simp only [hfn, hl, if_neg htrack]
  · simp only [hfn, hl, hg, if_neg htrack]

/-- C5 counterexample: the claim quantifies over every report row, but a
summary row ("album") with a malformed gain cell is not silently
excluded: it makes the ceiling absent, while the report without that row
yields a valid ceiling from the next summary row. -/
theorem C5_counterexample :
    (Row.mk (some "album") (some none) (some none)).gain = some none ∧
    (get_album_max_gain
      [Row.mk (some "album") (some none) (some none),
       Row.mk (some "album") (some none) (some (some 2))]).1 = none ∧
    (get_album_max_gain [Row.mk (some "album") (some none) (some (some 2))]).1 = some 2 := by
  decide

/-- C5 amended: restricted to track rows (Filename not "album"
case-insensitively), a malformed loudness or gain cell makes both
readers behave exactly as on the report with that row removed. -/
theorem C5_amended_malformed_track_row_skipped (pre post : List Row) (row : Row) (fn : String)
    (hfn : row.filename = some fn) (htrack : pyLower fn ≠ "album")
    (hbad : row.loudness = some none ∨
      (∃ l, row.loudness = some (some l) ∧ row.gain = some none)) :
    get_loudest_track_gain (pre ++ row :: post) = get_loudest_track_gain (pre ++ post) ∧
    get_album_max_gain (pre ++ row :: post) = get_album_max_gain (pre ++ post) := by
  constructor
  · unfold get_loudest_track_gain
    rw [loudestAux_congr_tail pre (row :: post) post
      (loudestAux_skips_malformed post row fn hfn htrack hbad)]
  · unfold get_album_max_gain
    rw [albumAux_congr_tail pre (row :: post) post
      (by rw [albumAux_cons]; simp only [hfn, if_neg htrack])]

theorem C5_witness :
    get_loudest_track_gain
        ([trackRowA] ++ Row.mk (some "TrackB") (some none) (some (some (-3))) :: [albumRow]) =
      get_loudest_track_gain ([trackRowA] ++ [albumRow]) ∧
    get_album_max_gain
        ([trackRowA] ++ Row.mk (some "TrackB") (some none) (some (some (-3))) :: [albumRow]) =
      get_album_max_gain ([trackRowA] ++ [albumRow]) :=
  C5_amended_malformed_track_row_skipped [trackRowA] [albumRow]
    (Row.mk (some "TrackB") (some none) (some (some (-3)))) "TrackB"
    rfl (by decide) (Or.inl rfl)

/-- The summary scan ignores a prefix of non-summary rows. -/
theorem albumAux_append_no_album (pre rest : List Row)
    (hpre : ∀ p ∈ pre, ∃ s, p.filename = some s ∧ pyLower s ≠ "album") :
    albumAux (pre ++ rest) = albumAux rest := by
  induction pre with
  | nil => rfl
  | cons p pre ih =>
    obtain ⟨s, hs, hns⟩ := hpre p (List.mem_cons_self p pre)
    rw [List.cons_append, albumAux_cons]
    simp only [hs, if_neg hns]
    exact ih (fun q hq => hpre q (List.mem_cons_of_mem p hq))

/-- C9: the ceiling comes from the first summary row only: a parsable
gain is returned, a malformed gain yields an absent ceiling without an
error (whatever follows, including later valid summary rows), and a
missing gain column yields an absent ceiling with an error logged. -/
theorem C9_first_summary_row_decides (pre post : List Row) (row : Row) (fn : String)
    (hpre : ∀ p ∈ pre, ∃ s, p.filename = some s ∧ pyLower s ≠ "album")
    (hfn : row.filename = some fn) (halb : pyLower fn = "album") :
    (∀ g, row.gain = some (some g) →
      get_album_max_gain (pre ++ row :: post) = (some g, false)) ∧
    (row.gain = some none →
      get_album_max_gain (pre ++ row :: post) = (none, false)) ∧
    (row.gain = none →
      get_album_max_gain (pre ++ row :: post) = (none, true)) := by
  have hstep : albumAux (pre ++ row :: post) = albumAux (row :: post) :=
    albumAux_append_no_album pre (row :: post) hpre
  refine ⟨fun g hg => ?_, fun hg => ?_, fun hg => ?_⟩ <;>
    · unfold get_album_max_gain
      rw [hstep, albumAux_cons]
      simp only [hfn, hg, if_pos halb]

theorem C9_witness :
    (∀ g, (Row.mk (some "album") (some none) (some none)).gain = some (some g) →
      get_album_max_gain
        ([] ++ Row.mk (some "album") (some none) (some none) ::
          [Row.mk (some "album") (some none) (some (some 2))]) = (some g, false)) ∧
    ((Row.mk (some "album") (some none) (some none)).gain = some none →
      get_album_max_gain
        ([] ++ Row.mk (some "album") (some none) (some none) ::
          [Row.mk (some "album") (some none) (some (some 2))]) = (none, false)) ∧
    ((Row.mk (some "album") (some none) (some none)).gain = none →
      get_album_max_gain
        ([] ++ Row.mk (some "album") (some none) (some none) ::
          [Row.mk (some "album") (some none) (some (some 2))]) = (none, true)) :=
  C9_first_summary_row_decides []
    [Row.mk (some "album") (some none) (some (some 2))]
    (Row.mk (some "album") (some none) (some none)) "album"
    (by simp) rfl (by decide)


/-- Unfolding equation for one step of the valid-track filter. -/
theorem validTracks_cons (row : Row) (rest : List Row) :
    validTracks (row :: rest) =
      (match row.filename with
      | none => validTracks rest
      | some fn =>
        if pyLower fn = "album" then validTracks rest
        else
          match row.loudness with
          | none => validTracks rest
          | some none => validTracks rest
          | some (some l) =>
            match row.gain with
            | none => validTracks rest
            | some none => validTracks rest
            | some (some g) => (l, g) :: validTracks rest) := rfl

/-- Unfolding equation for one step of the pure track fold. -/
theorem trackFold_cons (l g : ℚ) (ts : List (ℚ × ℚ)) (ml : ℚ) (tg : Option ℚ) :
    trackFold ((l, g) :: ts) ml tg =
      if l > ml then trackFold ts l (some g) else trackFold ts ml tg := rfl

/-- Unfolding equation for one step of the first-maximum selection. -/
theorem firstMaxGain_cons (l g : ℚ) (ts : List (ℚ × ℚ)) :
    firstMaxGain ((l, g) :: ts) =
      (if ts.all (fun u => decide (u.1 ≤ l)) then some g else firstMaxGain ts) := rfl

/-- If no track is strictly louder than the accumulator, the fold keeps
its current candidate. -/
theorem trackFold_of_all_le :
    ∀ (ts : List (ℚ × ℚ)) (ml : ℚ) (tg : Option ℚ), (∀ t ∈ ts, t.1 ≤ ml) →
      trackFold ts ml tg = tg := by
  intro ts
  induction ts with
  | nil => intro ml tg _; rfl
  | cons t ts ih =>
    intro ml tg h
    obtain ⟨l, g⟩ := t
    rw [trackFold_cons]
    rw [if_neg (not_lt.mpr (h (l, g) (List.mem_cons_self _ _)))]
    exact ih ml tg (fun u hu => h u (List.mem_cons_of_mem _ hu))

/-- As soon as some track is strictly louder than the accumulator, the
fold returns the gain of the first track attaining the maximum
loudness (the strictly-greater comparison keeps the earliest maximum). -/
theorem trackFold_eq_firstMaxGain :
    ∀ (ts : List (ℚ × ℚ)) (ml : ℚ) (tg : Option ℚ), (∃ t ∈ ts, ml < t.1) →
      trackFold ts ml tg = firstMaxGain ts := by
  intro ts
  induction ts with
  | nil => intro ml tg h; rcases h with ⟨t, ht, _⟩; cases ht
  | cons t ts ih =>
    intro ml tg h
    obtain ⟨l, g⟩ := t
    rw [trackFold_cons, firstMaxGain_cons]
    by_cases hlt : l > ml
    · rw [if_pos hlt]
      by_cases hall : ∀ u ∈ ts, u.1 ≤ l
      · have hb : ts.all (fun u => decide (u.1 ≤ l)) = true := by
          rw [List.all_eq_true]
          intro u hu
          exact decide_eq_true (hall u hu)
        rw [if_pos hb]
        exact trackFold_of_all_le ts l (some g) hall
      · push_neg at hall
        have hb : ¬ ts.all (fun u => decide (u.1 ≤ l)) = true := by
          rw [List.all_eq_true]
          intro hcon
          rcases hall with ⟨u, hu, hlu⟩
          exact absurd (of_decide_eq_true (hcon u hu)) (not_le.mpr hlu)
        rw [if_neg hb]
        exact ih l (some g) hall
    · rw [if_neg hlt]
      rcases h with ⟨w, hw, hml⟩
      have hwts : w ∈ ts := by
        rcases List.mem_cons.mp hw with hEq | hmem
        · subst hEq
          exact absurd hml hlt
        · exact hmem
      have ht : l ≤ ml := not_lt.mp hlt
      have hb : ¬ ts.all (fun u => decide (u.1 ≤ l)) = true := by
        rw [List.all_eq_true]
        intro hcon
        have hwl : w.1 ≤ l := of_decide_eq_true (hcon w hwts)
        exact absurd hml (not_lt.mpr (hwl.trans ht))
      rw [if_neg hb]
      exact ih ml tg ⟨w, hwts, hml⟩

/-- The first-maximum selection succeeds on a nonempty track list. -/
theorem firstMaxGain_isSome :
    ∀ ts : List (ℚ × ℚ), ts ≠ [] → (firstMaxGain ts).isSome = true := by
  intro ts
  induction ts with
  | nil => intro h; exact absurd rfl h
  | cons t ts ih =>
    intro _
    obtain ⟨l, g⟩ := t
    rw [firstMaxGain_cons]
    by_cases hb : ts.all (fun u => decide (u.1 ≤ l)) = true
    · rw [if_pos hb]; rfl
    · rw [if_neg hb]
      apply ih
      intro hnil
      rw [hnil] at hb
      exact hb rfl

/-- When no exception occurs, the track scan is the pure fold of the
surviving track rows. -/
theorem loudestAux_ok_factor :
    ∀ (rows : List Row) (ml : ℚ) (tg r : Option ℚ),
      loudestAux rows ml tg = Except.ok r → r = trackFold (validTracks rows) ml tg := by
  intro rows
  induction rows with
  | nil =>
    intro ml tg r h
    injection h with h2
    exact h2.symm
  | cons p rest ih =>
    intro ml tg r h
    rw [loudestAux_cons] at h
    rw [validTracks_cons]
    cases hfn : p.filename with
    | none =>
      rw [hfn] at h
      exact Except.noConfusion h
    | some fn =>
      rw [hfn] at h
      dsimp only at h ⊢
      by_cases halb : pyLower fn = "album"
      · rw [if_pos halb] at h
        rw [if_pos halb]
        exact ih ml tg r h
      · rw [if_neg halb] at h
        rw [if_neg halb]
        cases hl : p.loudness with
        | none =>
          rw [hl] at h
          exact Except.noConfusion h
        | some lc =>
          rw [hl] at h
          cases lc with
          | none => exact ih ml tg r h
          | some l =>
            dsimp only at h
            cases hg : p.gain with
            | none =>
              rw [hg] at h
              exact Except.noConfusion h
            | some gc =>
              rw [hg] at h
              cases gc with
              | none => exact ih ml tg r h
              | some g =>
                dsimp only at h
                rw [trackFold_cons]
                by_cases hlt : l > ml
                · rw [if_pos hlt] at h
                  rw [if_pos hlt]
                  exact ih l (some g) r h
                · rw [if_neg hlt] at h
                  rw [if_neg hlt]
                  exact ih ml tg r h

/-- C2 fails as stated: a single valid track row whose loudness equals
the sentinel initial maximum (-999) is never selected — the strict
comparison `loudness > -999` fails — so the loudest-track gain is
absent even though a valid track row exists (and no error occurred). -/
theorem C2_counterexample :
    validTracks [Row.mk (some "TrackA") (some (some (-999))) (some (some 0))] =
      [(-999, 0)] ∧
    firstMaxGain [((-999 : ℚ), (0 : ℚ))] = some 0 ∧
    (get_loudest_track_gain
      [Row.mk (some "TrackA") (some (some (-999))) (some (some 0))]).1 = none ∧
    (get_loudest_track_gain
      [Row.mk (some "TrackA") (some (some (-999))) (some (some 0))]).2 = false := by
  decide

/-- C2 amended: when the report read raises no exception and some valid
track row is strictly louder than the -999 sentinel, the loudest-track
gain is present and is the gain of the first-encountered track attaining
the maximum loudness; valid rows at or below -999 cannot be selected. -/
theorem C2_amended_loudest_is_first_max (rows : List Row)
    (hok : (get_loudest_track_gain rows).2 = false)
    (hx : ∃ t ∈ validTracks rows, (-999 : ℚ) < t.1) :
    (get_loudest_track_gain rows).1 = firstMaxGain (validTracks rows) ∧
    (firstMaxGain (validTracks rows)).isSome = true := by
  have hne : validTracks rows ≠ [] := by
    rcases hx with ⟨t, ht, _⟩
    intro hnil
    rw [hnil] at ht
    cases ht
  refine ⟨?_, firstMaxGain_isSome _ hne⟩
  unfold get_loudest_track_gain at hok ⊢
  cases hE : loudestAux rows (-999) none with
  | error e =>
    rw [hE] at hok
    exact Bool.noConfusion hok
  | ok tg =>
    have h1 := loudestAux_ok_factor rows (-999) none tg hE
    dsimp only
    rw [h1]
    exact trackFold_eq_firstMaxGain (validTracks rows) (-999) none hx

theorem C2_witness :
    (get_loudest_track_gain scenarioRows).1 = firstMaxGain (validTracks scenarioRows) ∧
    (firstMaxGain (validTracks scenarioRows)).isSome = true :=
  C2_amended_loudest_is_first_max scenarioRows (by decide) (by decide)


/-- A row with a missing column makes the track scan raise, whatever
comes before or after it. -/
theorem loudestAux_error_of_missing :
    ∀ (rows : List Row) (row : Row), row ∈ rows → missingColumnB row = true →
      ∀ ml tg, loudestAux rows ml tg = Except.error () := by
  intro rows
  induction rows with
  | nil => intro row hr; cases hr
  | cons p rest ih =>
    intro row hr hc ml tg
    rw [loudestAux_cons]
    rcases List.mem_cons.mp hr with hEq | hmem
    · subst hEq
      unfold missingColumnB at hc
      cases hfn : row.filename with
      | none => rfl
      | some fn =>
        rw [hfn] at hc
        dsimp only at hc ⊢
        by_cases halb : pyLower fn = "album"
        · rw [if_pos halb] at hc
          exact Bool.noConfusion hc
        · rw [if_neg halb] at hc
          rw [if_neg halb]
          cases hl : row.loudness with
          | none => rfl
          | some lc =>
            rw [hl] at hc
            cases lc with
            | none =>
              dsimp only at hc
              exact Bool.noConfusion hc
            | some l =>
              dsimp only at hc
              cases hg : row.gain with
              | none => rfl
              | some gc =>
                rw [hg] at hc
                dsimp only at hc
                exact Bool.noConfusion hc
    · cases hfn : p.filename with
      | none => rfl
      | some fn =>
        by_cases halb : pyLower fn = "album"
        · simp only [if_pos halb]
          exact ih row hmem hc ml tg
        · simp only [if_neg halb]
          cases p.loudness with
          | none => rfl
          | some lc =>
            cases lc with
            | none => exact ih row hmem hc ml tg
            | some l =>
              cases p.gain with
              | none => rfl
              | some gc =>
                cases gc with
                | none => exact ih row hmem hc ml tg
                | some g =>
                  by_cases hlt : l > ml
                  · simp only [if_pos hlt]
                    exact ih row hmem hc l (some g)
                  · simp only [if_neg hlt]
                    exact ih row hmem hc ml tg

/-- C10: a row whose required column is absent makes the whole report
read return absent with an error logged, and the album is skipped (a
warning, nothing invoked, nothing written) — unlike a malformed numeric
cell, which merely skips its own row. -/
theorem C10_missing_column_aborts (rows : List Row) (files : List String) (dry_run : Bool)
    (row : Row) (hr : row ∈ rows) (hc : missingColumnB row = true) :
    get_loudest_track_gain rows = (none, true) ∧
    (process_album true rows files dry_run).noDataWarn = true ∧
    (process_album true rows files dry_run).errorLogged = true ∧
    (process_album true rows files dry_run).invoked = [] ∧
    (process_album true rows files dry_run).mutations = [] := by
  have hlg : get_loudest_track_gain rows = (none, true) := by
    unfold get_loudest_track_gain
    rw [loudestAux_error_of_missing rows row hr hc (-999) none]
  refine ⟨hlg, ?_, ?_, ?_, ?_⟩ <;> simp [process_album, hlg]

theorem C10_witness :
    get_loudest_track_gain [Row.mk none none none] = (none, true) ∧
    (process_album true [Row.mk none none none] ["a.mp3"] false).noDataWarn = true ∧
    (process_album true [Row.mk none none none] ["a.mp3"] false).errorLogged = true ∧
    (process_album true [Row.mk none none none] ["a.mp3"] false).invoked = [] ∧
    (process_album true [Row.mk none none none] ["a.mp3"] false).mutations = [] :=
  C10_missing_column_aborts [Row.mk none none none] ["a.mp3"] false
    (Row.mk none none none) (by simp) rfl


/-- C1: whenever both the loudest-track gain and the album ceiling gain
are obtained, the gain selected for writing is their minimum
(source line 107, `gain_to_write = min(loudest_gain, album_max_gain)`). -/
theorem C1_gain_to_write_is_min (rows : List Row) (files : List String) (dry_run : Bool)
    (l a : ℚ)
    (h1 : (get_loudest_track_gain rows).1 = some l)
    (h2 : (get_album_max_gain rows).1 = some a) :
    (process_album true rows files dry_run).gainToWrite = some (min l a) := by
  unfold process_album
  rw [if_neg (by decide : ¬ (true = false))]
  simp only [h1, h2]
  split <;> rfl

theorem C1_witness :
    (process_album true scenarioRows ["a.mp3"] false).gainToWrite =
      some (min (-3 : ℚ) (-5 / 2)) :=
  C1_gain_to_write_is_min scenarioRows ["a.mp3"] false (-3) (-5 / 2)
    (by decide) (by decide)

/-- C3: if the selected gain is within 0.01 of the ceiling, nothing is
invoked or written and only the "no need to write" line is logged;
otherwise (dry run off) every file whose lowercased extension is
recognized gets the tag written by `write_gain` at the selected gain. -/
theorem C3_tolerance_skip_or_write_all (rows : List Row) (files : List String)
    (l a : ℚ)
    (h1 : (get_loudest_track_gain rows).1 = some l)
    (h2 : (get_album_max_gain rows).1 = some a) :
    (|min l a - a| < 1 / 100 →
      (process_album true rows files false).noWriteInfo = true ∧
      (process_album true rows files false).writeLogged = false ∧
      (process_album true rows files false).invoked = [] ∧
      (process_album true rows files false).mutations = []) ∧
    (¬ |min l a - a| < 1 / 100 →
      ∀ f ∈ files, pyLower (pySuffix f) ∈ VALID_EXTENSIONS →
        ∃ w, write_gain f (min l a) false = some w ∧
          (f, w) ∈ (process_album true rows files false).mutations) := by
  unfold process_album
  rw [if_neg (by decide : ¬ (true = false))]
  simp only [h1, h2]
  constructor
  · intro htol
    rw [if_pos htol]
    exact ⟨rfl, rfl, rfl, rfl⟩
  · intro htol f hf hext
    rw [if_neg htol]
    have hmem : f ∈ files.filter (fun f => decide (pyLower (pySuffix f) ∈ VALID_EXTENSIONS)) := by
      rw [List.mem_filter]
      exact ⟨hf, by simpa using hext⟩
    have hw : ∃ w, write_gain f (min l a) false = some w := by
      rcases (by simpa [VALID_EXTENSIONS] using hext :
          pyLower (pySuffix f) = ".mp3" ∨ pyLower (pySuffix f) = ".m4a") with h | h
      · exact ⟨TagWrite.mp3TXXX MP3_TAG_KEY (formatGain (min l a)), by simp [write_gain, h]⟩
      · exact ⟨TagWrite.m4aFreeForm M4A_TAG_KEY (formatGain (min l a)), by simp [write_gain, h]⟩
    rcases hw with ⟨w, hw⟩
    refine ⟨w, hw, ?_⟩
    simp only [List.mem_filterMap]
    exact ⟨f, hmem, by rw [hw]; rfl⟩

theorem C3_witness :
    (|min (-3 : ℚ) (-5 / 2) - (-5 / 2)| < 1 / 100 →
      (process_album true scenarioRows ["a.MP3", "b.flac"] false).noWriteInfo = true ∧
      (process_album true scenarioRows ["a.MP3", "b.flac"] false).writeLogged = false ∧
      (process_album true scenarioRows ["a.MP3", "b.flac"] false).invoked = [] ∧
      (process_album true scenarioRows ["a.MP3", "b.flac"] false).mutations = []) ∧
    (¬ |min (-3 : ℚ) (-5 / 2) - (-5 / 2)| < 1 / 100 →
      ∀ f ∈ ["a.MP3", "b.flac"], pyLower (pySuffix f) ∈ VALID_EXTENSIONS →
        ∃ w, write_gain f (min (-3 : ℚ) (-5 / 2)) false = some w ∧
          (f, w) ∈ (process_album true scenarioRows ["a.MP3", "b.flac"] false).mutations) :=
  C3_tolerance_skip_or_write_all scenarioRows ["a.MP3", "b.flac"] (-3) (-5 / 2)
    (by decide) (by decide)

/-- C8: on the write path, `write_gain` is invoked on exactly the listed
files whose lowercased extension is `.mp3` or `.m4a`. -/
theorem C8_extension_filter (rows : List Row) (files : List String) (dry_run : Bool)
    (l a : ℚ)
    (h1 : (get_loudest_track_gain rows).1 = some l)
    (h2 : (get_album_max_gain rows).1 = some a)
    (h3 : ¬ |min l a - a| < 1 / 100) :
    ∀ f, f ∈ (process_album true rows files dry_run).invoked ↔
      (f ∈ files ∧ pyLower (pySuffix f) ∈ VALID_EXTENSIONS) := by
  intro f
  unfold process_album
  rw [if_neg (by decide : ¬ (true = false))]
  simp only [h1, h2]
  rw [if_neg h3]
  simp [List.mem_filter]

theorem C8_witness :
    ("a.MP3" ∈ (process_album true scenarioRows ["a.MP3", "b.flac", "c.m4a"] false).invoked ↔
      ("a.MP3" ∈ ["a.MP3", "b.flac", "c.m4a"] ∧ pyLower (pySuffix "a.MP3") ∈ VALID_EXTENSIONS)) ∧
    ("b.flac" ∈ (process_album true scenarioRows ["a.MP3", "b.flac", "c.m4a"] false).invoked ↔
      ("b.flac" ∈ ["a.MP3", "b.flac", "c.m4a"] ∧ pyLower (pySuffix "b.flac") ∈ VALID_EXTENSIONS)) :=
  ⟨C8_extension_filter scenarioRows ["a.MP3", "b.flac", "c.m4a"] false (-3) (-5 / 2)
    (by decide) (by decide) (by decide) "a.MP3",
   C8_extension_filter scenarioRows ["a.MP3", "b.flac", "c.m4a"] false (-3) (-5 / 2)
    (by decide) (by decide) (by decide) "b.flac"⟩

end ReplayGain
